import Mathlib

/-!
Shallow embedding of the datawrangling repository core
(src/indicators.py and src/jsonmaker.py) and verification of the
frozen claims about it.

Conventions of the embedding:
- pandas timestamps are modelled as natural numbers;
- float values carried by series are modelled as rationals; a float
  NaN (an undefined entry produced by `diff`, `rolling` warm-up or a
  0/0 division) is modelled as `none` in an `Option ℚ` column;
- a DataFrame is modelled column-major where the source manipulates
  whole columns (indicators.py) and row-major where the source
  iterates rows (jsonmaker.py).
-/

namespace DataWrangling

/-- Embedding of `Series.diff()`: entry 0 is NaN (`none`), entry i+1
is `x[i+1] - x[i]`. -/
def seriesDiff : List ℚ → List (Option ℚ)
  | [] => []
  | x :: xs => none :: List.zipWith (fun a b => some (b - a)) (x :: xs) xs

/-- Embedding of `Series.rolling(window=period).mean()` on a series
without NaN entries, with the pandas default `min_periods = window`:
position `i` is defined iff `i + 1 ≥ period`, in which case it is the
arithmetic mean of entries `i - period + 1 .. i`. -/
def rollingMean (period : ℕ) (xs : List ℚ) : List (Option ℚ) :=
  (List.range xs.length).map (fun i =>
    if period ≤ i + 1 then some ((((xs.drop (i + 1 - period)).take period).sum) / period)
    else none)

/-- Recursive worker for `emaList`: folds the exponential recurrence
`cur = a * x + (1 - a) * prev` over the remaining entries. -/
def emaFrom (a : ℚ) (prev : ℚ) : List ℚ → List ℚ
  | [] => []
  | x :: xs => (a * x + (1 - a) * prev) :: emaFrom a (a * x + (1 - a) * prev) xs

/-- Embedding of `Series.ewm(span=span, adjust=False).mean()`:
`ema[0] = x[0]`, `ema[t] = α·x[t] + (1−α)·ema[t−1]` with
`α = 2/(span+1)`. Defined at every position, no warm-up gap. -/
def emaList (span : ℕ) (xs : List ℚ) : List ℚ :=
  match xs with
  | [] => []
  | x :: rest => x :: emaFrom (2 / ((span : ℚ) + 1)) x rest

/-- Embedding of the per-period column computed by `compute_rsi`
(src/indicators.py): `delta = close.diff()`;
`gain = delta.where(delta > 0, 0).rolling(period).mean()`;
`loss = (-delta.where(delta < 0, 0)).rolling(period).mean()`;
`rs = gain / loss`; column = `100 - 100 / (1 + rs)`.
The `where` calls replace the leading NaN of `diff` by 0 (NaN
compares false), so `gain`/`loss` are NaN-free. The final combination
mirrors IEEE semantics of the float expression for `g, l ≥ 0`:
`l > 0` gives the finite value, `l = 0 < g` gives `rs = +∞` hence
RSI `= 100`, and `l = 0 = g` gives `rs = NaN` hence a NaN entry
(`none`). -/
def compute_rsi (closes : List ℚ) (period : ℕ) : List (Option ℚ) :=
  let delta := seriesDiff closes
  let gain := delta.map (fun o => match o with
    | some d => if 0 < d then d else 0
    | none => 0)
  let loss := delta.map (fun o => match o with
    | some d => if d < 0 then -d else 0
    | none => 0)
  List.zipWith (fun og ol => match og, ol with
    | some g, some l =>
        if l = 0 then (if 0 < g then some (100 : ℚ) else none)
        else some (100 - 100 / (1 + g / l))
    | _, _ => none) (rollingMean period gain) (rollingMean period loss)

/-- Embedding of the per-period column computed by `compute_sma`
(src/indicators.py): `close.rolling(window=period).mean()`. -/
def compute_sma (closes : List ℚ) (period : ℕ) : List (Option ℚ) :=
  rollingMean period closes

/-- Output columns of `compute_macd` that the claims mention. -/
structure MacdOut where
  macd : List ℚ
  signal : List ℚ
  histogram : List ℚ
deriving Repr, DecidableEq

/-- Embedding of `compute_macd` (src/indicators.py):
`EMA_s = close.ewm(span=shortWindow, adjust=False).mean()`,
`EMA_l = close.ewm(span=longWindow, adjust=False).mean()`,
`MACD = EMA_s - EMA_l`, `Signal = MACD.ewm(span=signalWindow,
adjust=False).mean()`, `Histogram = MACD - Signal`. -/
def compute_macd (closes : List ℚ) (shortWindow longWindow signalWindow : ℕ) : MacdOut :=
  let emaShort := emaList shortWindow closes
  let emaLong := emaList longWindow closes
  let macd := List.zipWith (fun a b => a - b) emaShort emaLong
  let signal := emaList signalWindow macd
  let histogram := List.zipWith (fun a b => a - b) macd signal
  ⟨macd, signal, histogram⟩

/-- Column-major model of the DataFrame passed to `sma_scaler`: an
`Open Time` column, a `Close` column, and further named value columns
(the `SMA<p>` columns and any others). After the `dropna` performed by
the caller all values are defined, hence plain rationals. -/
structure SmaDf where
  openTime : List ℕ
  close : List ℚ
  cols : List (String × List ℚ)
deriving Repr, DecidableEq

/-- Embedding of the Python `str.startswith` test used by
`sma_scaler` (`column.startswith("SMA")`): the characters of `pre`
form a prefix of the characters of `s`. -/
def strStarts (pre s : String) : Bool :=
  pre.data.isPrefixOf s.data

/-- Embedding of `sma_scaler` (src/indicators.py): every column whose
name starts with `"SMA"` is replaced element-wise by
`(sma - close) / close * 100`; every other named column is unchanged;
the `Close` column is dropped from the output (structurally: the
result carries only the `Open Time` column and the named columns). -/
def sma_scaler (df : SmaDf) : List ℕ × List (String × List ℚ) :=
  (df.openTime,
   df.cols.map (fun c =>
     if strStarts "SMA" c.1 then
       (c.1, List.zipWith (fun s cl => (s - cl) / cl * 100) c.2 df.close)
     else c))

/-- Embedding of `align_dataframes` (src/jsonmaker.py):
`common = df1.merge(df2, on=key, how=inner)`, then each input is
filtered by `isin(common[key])`. The key column of the inner merge
holds exactly the key values present in both inputs, and `isin` only
uses membership, so `common` is modelled by the sub-list of df1 keys
that also occur among df2 keys. -/
def align_dataframes {α β : Type} (key1 : α → ℕ) (key2 : β → ℕ)
    (df1 : List α) (df2 : List β) : List α × List β :=
  let commonKeys := (df1.map key1).filter (fun k => decide (k ∈ df2.map key2))
  (df1.filter (fun r => decide (key1 r ∈ commonKeys)),
   df2.filter (fun r => decide (key2 r ∈ commonKeys)))

/-- One candlestick row of `dfCsticks`: the columns `build_frames`
reads from it. -/
structure Bar where
  openTime : ℕ
  close : ℚ
deriving Repr, DecidableEq, Inhabited

/-- One row of `dfIndicators`: an `Open Time` value plus the
name-to-value mapping of the remaining columns. -/
structure IndRow where
  openTime : ℕ
  values : List (String × ℚ)
deriving Repr, DecidableEq, Inhabited

/-- Embedding of the `Indicators` class of src/jsonmaker.py. -/
structure Indicators where
  timestamp : ℕ
  values : List (String × ℚ)
deriving Repr, DecidableEq, Inhabited

/-- Embedding of `Indicators.is_empty`: `not bool(self.values)`. -/
def Indicators.is_empty (ind : Indicators) : Bool :=
  ind.values.isEmpty

/-- Embedding of `Indicators.to_json`: opens the object with the
timestamp field, appends `"<key>": <value>,` per entry, strips the
final comma and closes the object. -/
def Indicators.to_json (ind : Indicators) : String :=
  let base := "\x7b" ++ "\"timestamp\": \"" ++ toString ind.timestamp ++ "\","
  let withVals := ind.values.foldl
    (fun acc kv => acc ++ "\"" ++ kv.1 ++ "\": " ++ toString kv.2 ++ ",") base
  withVals.dropRight 1 ++ "\x7d"

/-- Embedding of `dataframe_to_indicators`: each indicator row becomes
an `Indicators` value carrying its timestamp and the remaining
columns. -/
def dataframe_to_indicators (rows : List IndRow) : List Indicators :=
  rows.map (fun r => ⟨r.openTime, r.values⟩)

/-- Embedding of the `Frame` class of src/jsonmaker.py. -/
structure Frame where
  startTime : ℕ
  frameIndicatorsWindow : ℕ
  frameTargetDistance : ℕ
  frameTargetTimestamp : ℕ
  indicators : List Indicators
  target : ℚ
deriving Repr, DecidableEq, Inhabited

/-- Embedding of `Frame.to_json`: returns `""` when any indicator has
an empty value mapping, otherwise renders the object, stripping the
comma after the last indicator before closing the array. -/
def Frame.to_json (f : Frame) : String :=
  if f.indicators.any (fun ind => ind.is_empty) then ""
  else
    let head := "\x7b" ++ "\"start\": \"" ++ toString f.startTime ++ "\","
      ++ "\"window_size\": " ++ toString f.frameIndicatorsWindow ++ ","
      ++ "\"target_distance\": " ++ toString f.frameTargetDistance ++ ","
      ++ "\"target_time\": \"" ++ toString f.frameTargetTimestamp ++ "\","
      ++ "\"indicators\": ["
    let withInds := f.indicators.foldl (fun acc ind => acc ++ ind.to_json ++ ",") head
    withInds.dropRight 1 ++ "]," ++ "\"target_evolution\": " ++ toString f.target ++ "\x7d"

/-- Embedding of `build_frames` (src/jsonmaker.py).  The two inputs
are first aligned on `Open Time`; the cursor loop
`while i < len - frameIndicatorsWindow - frameTargetDistance + 1`
over Python integers performs exactly `max(0, len + 1 - (w + d))`
iterations, which the `List.range` argument expresses via truncated
subtraction.  Indexing `i + w + d - 1` is natural-number subtraction;
it agrees with the Python index for `w + d ≥ 1` (for `w + d = 0`
Python would wrap the index `-1` around, a case outside every claim
considered here). -/
def build_frames (dfCsticks : List Bar) (dfIndicators : List IndRow) (w d : ℕ) : List Frame :=
  let aligned := align_dataframes Bar.openTime IndRow.openTime dfCsticks dfIndicators
  let cs := aligned.1
  let ind := aligned.2
  (List.range (cs.length + 1 - (w + d))).map (fun i =>
    let startTime := (cs.getD i default).openTime
    let startPrice := (cs.getD i default).close
    let windowIndicators := (ind.drop i).take w
    let endPrice := (cs.getD (i + w + d - 1) default).close
    let targetTimestamp := (cs.getD (i + w + d - 1) default).openTime
    let target := (endPrice - startPrice) / startPrice
    ⟨startTime, w, d, targetTimestamp, dataframe_to_indicators windowIndicators, target⟩)

/-- Worker of `export_json`: the body written between `"[\n"` and
`"]\n"`, with `n` the total frame count and `i` the loop index.  A
frame whose `to_json` is empty is skipped (the source prints a
diagnostic there); the last list position gets `"\n"` instead of
`",\n"`. -/
def exportBody (n : ℕ) : ℕ → List Frame → String
  | _, [] => ""
  | i, f :: rest =>
      (let txt := f.to_json
       if txt = "" then ""
       else if i = n - 1 then txt ++ "\n" else txt ++ ",\n") ++ exportBody n (i + 1) rest

/-- Embedding of `export_json` (src/jsonmaker.py): the full text
written to the output file. -/
def export_json (frames : List Frame) : String :=
  "[\n" ++ exportBody frames.length 0 frames ++ "]\n"

/-! ## Shared helper lemmas -/

theorem emaFrom_length (a prev : ℚ) (xs : List ℚ) : (emaFrom a prev xs).length = xs.length := by
  induction xs generalizing prev with
  | nil => rfl
  | cons x xs ih => simp [emaFrom, ih]

theorem emaList_length (span : ℕ) (xs : List ℚ) : (emaList span xs).length = xs.length := by
  cases xs with
  | nil => rfl
  | cons x rest => simp [emaList, emaFrom_length]

theorem getD_zipWith (f : ℚ → ℚ → ℚ) (l1 l2 : List ℚ) (i : ℕ)
    (h1 : i < l1.length) (h2 : i < l2.length) :
    (List.zipWith f l1 l2).getD i 0 = f (l1.getD i 0) (l2.getD i 0) := by
  rw [List.getD_eq_getElem?_getD, List.getD_eq_getElem?_getD, List.getD_eq_getElem?_getD,
    List.getElem?_zipWith, List.getElem?_eq_getElem h1, List.getElem?_eq_getElem h2]
  rfl

theorem emaFrom_const (a v : ℚ) (m : ℕ) :
    emaFrom a v (List.replicate m v) = List.replicate m v := by
  induction m with
  | zero => rfl
  | succ m ih =>
      have h : a * v + (1 - a) * v = v := by ring
      rw [List.replicate_succ, emaFrom, h, ih]

/-! ## Claim C5: Histogram = MACD − Signal at every row -/

/-- Claim C5: for every input close series (and every choice of the
short, long and signal windows), the Histogram column of
`compute_macd` has the length of the input and equals the MACD column
minus the Signal column at every row. -/
theorem compute_macd_histogram_eq_macd_sub_signal (closes : List ℚ) (s l g : ℕ) :
    ((compute_macd closes s l g).histogram).length = closes.length ∧
    ∀ i, i < closes.length →
      (compute_macd closes s l g).histogram.getD i 0 =
        (compute_macd closes s l g).macd.getD i 0 -
          (compute_macd closes s l g).signal.getD i 0 := by
  have hmacd : (compute_macd closes s l g).macd.length = closes.length := by
    simp [compute_macd, emaList_length]
  have hsig : (compute_macd closes s l g).signal.length = closes.length := by
    simp [compute_macd, emaList_length]
  have hhist : (compute_macd closes s l g).histogram.length = closes.length := by
    simp [compute_macd, emaList_length]
  refine ⟨hhist, fun i hi => ?_⟩
  have h1 : i < (compute_macd closes s l g).macd.length := by omega
  have h2 : i < (compute_macd closes s l g).signal.length := by omega
  calc (compute_macd closes s l g).histogram.getD i 0
      = (List.zipWith (fun a b => a - b) (compute_macd closes s l g).macd
          (compute_macd closes s l g).signal).getD i 0 := by
        simp [compute_macd]
    _ = (compute_macd closes s l g).macd.getD i 0 -
          (compute_macd closes s l g).signal.getD i 0 :=
        getD_zipWith _ _ _ i h1 h2

/-! ## Claim C7: EMA is a fixed point on constant series -/

/-- Claim C7: for every span, the exponential moving average given by
the recurrence `ema[0] = close[0]`, `ema[t] = α·close[t] +
(1−α)·ema[t−1]` with `α = 2/(span+1)` maps a constant series of value
`v` to itself, and the output is defined at every position from the
first bar on (same length as the input, no warm-up gap). -/
theorem emaList_const_fixed_point (span n : ℕ) (v : ℚ) :
    emaList span (List.replicate n v) = List.replicate n v ∧
    ∀ xs : List ℚ, (emaList span xs).length = xs.length := by
  refine ⟨?_, emaList_length span⟩
  cases n with
  | zero => rfl
  | succ m => rw [List.replicate_succ, emaList, emaFrom_const]

set_option maxRecDepth 100000

/-! ## Claim C10: export_json on empty or all-invalid frame lists -/

theorem to_json_of_empty_indicator (f : Frame)
    (h : ∃ ind ∈ f.indicators, ind.values = []) : f.to_json = "" := by
  obtain ⟨ind, hmem, hv⟩ := h
  unfold Frame.to_json
  rw [if_pos]
  exact List.any_eq_true.mpr ⟨ind, hmem, by simp [Indicators.is_empty, hv]⟩

theorem exportBody_of_all_empty (frames : List Frame)
    (h : ∀ f ∈ frames, f.to_json = "") (n i : ℕ) : exportBody n i frames = "" := by
  induction frames generalizing i with
  | nil => rfl
  | cons f rest ih =>
      have hf : f.to_json = "" := h f (List.mem_cons_self f rest)
      have hrest : ∀ g ∈ rest, g.to_json = "" := fun g hg => h g (List.mem_cons_of_mem f hg)
      simp [exportBody, hf, ih hrest]

/-- Claim C10: for the empty frame list, and for any frame list in
which every frame is invalid (some indicator snapshot has an empty
value mapping), `export_json` writes exactly the text `"[\n]\n"` (a
well-formed empty JSON array) and writes no element for the invalid
frames.  The empty list satisfies the hypothesis vacuously. -/
theorem export_json_all_invalid (frames : List Frame)
    (h : ∀ f ∈ frames, ∃ ind ∈ f.indicators, ind.values = []) :
    export_json frames = "[\n]\n" := by
  unfold export_json
  rw [exportBody_of_all_empty frames (fun f hf => to_json_of_empty_indicator f (h f hf))]
  rfl

/-- Concrete all-invalid frame list used by the witness of C10. -/
def invalidOnlyFrames : List Frame := [⟨0, 1, 1, 0, [⟨0, []⟩], 0⟩]

/-- Witness for C10 at a concrete all-invalid frame list. -/
theorem export_json_all_invalid_witness :
    (∀ f ∈ invalidOnlyFrames, ∃ ind ∈ f.indicators, ind.values = []) ∧
    export_json invalidOnlyFrames = "[\n]\n" :=
  ⟨by decide, export_json_all_invalid invalidOnlyFrames (by decide)⟩

/-! ## Claim C2: the serializer is not always syntactically valid -/

/-- Valid frame used to exhibit the trailing-comma slip of
`export_json`. -/
def validFrame : Frame :=
  ⟨1, 2, 1, 3, [⟨1, [("RSI14", 55)]⟩, ⟨2, [("RSI14", 56)]⟩], 7⟩

/-- Invalid frame (an indicator snapshot with an empty value mapping)
placed last in the list. -/
def lastInvalidFrame : Frame :=
  ⟨2, 2, 1, 4, [⟨2, []⟩, ⟨3, [("RSI14", 57)]⟩], 9⟩

/-- Claim C2 fails on the code: `export_json` decides the separator
from the position in the frame list, not from the position among the
valid frames, so when the final frame is invalid and an earlier frame
is valid the one emitted element is followed by a comma directly
before the closing bracket, which is not valid JSON. -/
theorem export_json_trailing_comma :
    validFrame.to_json ≠ "" ∧
    export_json [validFrame, lastInvalidFrame] =
      "[\n" ++ validFrame.to_json ++ ",\n" ++ "]\n" := by
  constructor
  · decide
  · rfl

/-! ## Claim C3: RSI on a zero-average-loss window -/

/-- Claim C3 fails on the code: on the all-flat close series
`[5, 5, 5]` with period 2, every delta is zero, so at positions 1 and
2 the trailing average loss is zero while the trailing average gain is
also zero, the float quotient is `0/0 = NaN`, and `compute_rsi`
propagates the undefined entry instead of producing 100. -/
theorem compute_rsi_flat_is_undefined :
    compute_rsi [5, 5, 5] 2 = [none, none, none] ∧
    (compute_rsi [5, 5, 5] 2).getD 1 none ≠ some 100 := by
  have h : compute_rsi [5, 5, 5] 2 = [none, none, none] := by
    norm_num [compute_rsi, seriesDiff, rollingMean, List.range_succ]
  exact ⟨h, by rw [h]; simp⟩

/-! ## Claim C9: empty alignment intersection is not fatal -/

/-- Candlestick rows whose timestamps are disjoint from
`disjointInds`. -/
def disjointBars : List Bar := [⟨1, 10⟩, ⟨2, 20⟩, ⟨3, 30⟩]

/-- Indicator rows whose timestamps are disjoint from
`disjointBars`. -/
def disjointInds : List IndRow := [⟨100, [("RSI14", 50)]⟩, ⟨101, [("RSI14", 51)]⟩]

/-- Claim C9 fails on the code: when alignment yields an empty
timestamp intersection the pipeline raises no error, `build_frames`
returns the empty frame list, and `export_json` still emits the
empty-array artifact `"[\n]\n"`.  The second conjunct shows the other
fatal condition of the claim (too few aligned rows to form one
window) produces the very same frame list and artifact, so the two
conditions are not reported, let alone reported distinctly. -/
theorem empty_intersection_emits_artifact :
    (build_frames disjointBars disjointInds 14 14 = [] ∧
      export_json (build_frames disjointBars disjointInds 14 14) = "[\n]\n") ∧
    (build_frames [⟨1, 10⟩, ⟨2, 20⟩] [⟨1, [("RSI14", 50)]⟩, ⟨2, [("RSI14", 51)]⟩] 14 14 = [] ∧
      export_json (build_frames [⟨1, 10⟩, ⟨2, 20⟩]
        [⟨1, [("RSI14", 50)]⟩, ⟨2, [("RSI14", 51)]⟩] 14 14) = "[\n]\n") := by
  refine ⟨⟨?_, ?_⟩, ⟨?_, ?_⟩⟩
  · rfl
  · rfl
  · rfl
  · rfl

/-! ## Claim C6: SMA column length, warm-up gap and trailing mean -/

theorem sum_take (l : List ℚ) : ∀ p, p ≤ l.length →
    (l.take p).sum = ∑ j ∈ Finset.range p, l.getD j 0 := by
  intro p
  induction p with
  | zero => simp
  | succ p ih =>
      intro hp
      have hplt : p < l.length := by omega
      have hp' : p ≤ l.length := by omega
      have hgetd : l.getD p 0 = l.get ⟨p, hplt⟩ := by
        rw [List.getD_eq_getElem?_getD, List.getElem?_eq_getElem hplt]
        rfl
      rw [List.take_succ, List.getElem?_eq_getElem hplt, List.sum_append,
        Finset.sum_range_succ, ih hp', hgetd]
      simp

theorem sum_drop_take (l : List ℚ) (k p : ℕ) (h : k + p ≤ l.length) :
    ((l.drop k).take p).sum = ∑ j ∈ Finset.range p, l.getD (k + j) 0 := by
  have hlen : p ≤ (l.drop k).length := by
    rw [List.length_drop]
    omega
  rw [sum_take (l.drop k) p hlen]
  refine Finset.sum_congr rfl (fun j hj => ?_)
  rw [List.getD_eq_getElem?_getD, List.getD_eq_getElem?_getD, List.getElem?_drop]

theorem rollingMean_getD (period : ℕ) (xs : List ℚ) (i : ℕ) (hi : i < xs.length) :
    (rollingMean period xs).getD i none =
      if period ≤ i + 1 then
        some ((((xs.drop (i + 1 - period)).take period).sum) / period)
      else none := by
  rw [rollingMean, List.getD_eq_getElem?_getD, List.getElem?_map, List.getElem?_range hi]
  rfl

/-- Claim C6: for every period at least 1 and every input close
series, the SMA output column of `compute_sma` has the length of the
input, its first `period − 1` entries are undefined, and every entry
at position `i ≥ period − 1` is the arithmetic mean of the closes at
positions `i − period + 1 .. i` inclusive. -/
theorem compute_sma_spec (closes : List ℚ) (period : ℕ) (_hp : 1 ≤ period) :
    (compute_sma closes period).length = closes.length ∧
    (∀ i, i < closes.length → i + 1 < period →
      (compute_sma closes period).getD i none = none) ∧
    (∀ i, i < closes.length → period ≤ i + 1 →
      (compute_sma closes period).getD i none =
        some ((∑ j ∈ Finset.range period, closes.getD (i + 1 - period + j) 0) / period)) := by
  refine ⟨by simp [compute_sma, rollingMean], fun i hi hlt => ?_, fun i hi hge => ?_⟩
  · rw [compute_sma, rollingMean_getD period closes i hi, if_neg (by omega)]
  · rw [compute_sma, rollingMean_getD period closes i hi, if_pos hge,
      sum_drop_take closes (i + 1 - period) period (by omega)]

/-- Witness for C6 at the concrete series `[1, 2, 3]` with period 2. -/
theorem compute_sma_spec_witness :
    1 ≤ 2 ∧
    ((compute_sma [1, 2, 3] 2).length = ([1, 2, 3] : List ℚ).length ∧
     (∀ i, i < ([1, 2, 3] : List ℚ).length → i + 1 < 2 →
       (compute_sma [1, 2, 3] 2).getD i none = none) ∧
     (∀ i, i < ([1, 2, 3] : List ℚ).length → 2 ≤ i + 1 →
       (compute_sma [1, 2, 3] 2).getD i none =
         some ((∑ j ∈ Finset.range 2, ([1, 2, 3] : List ℚ).getD (i + 1 - 2 + j) 0) / 2))) :=
  ⟨by omega, compute_sma_spec [1, 2, 3] 2 (by omega)⟩

/-! ## Claim C8: sma_scaler transformation and constant-series zero -/

theorem mem_zipWith_imp (f : ℚ → ℚ → ℚ) (l1 l2 : List ℚ) (y : ℚ)
    (hy : y ∈ List.zipWith f l1 l2) : ∃ a ∈ l1, ∃ b ∈ l2, y = f a b := by
  induction l1 generalizing l2 y with
  | nil => simp at hy
  | cons a t1 ih =>
      cases l2 with
      | nil => simp at hy
      | cons b t2 =>
          rw [List.zipWith_cons_cons] at hy
          rcases List.mem_cons.mp hy with h | h
          · exact ⟨a, List.mem_cons_self a t1, b, List.mem_cons_self b t2, h⟩
          · obtain ⟨a1, ha1, b1, hb1, heq⟩ := ih t2 y h
            exact ⟨a1, List.mem_cons_of_mem a ha1, b1, List.mem_cons_of_mem b hb1, heq⟩

/-- Claim C8: for every input series, `sma_scaler` keeps the
`Open Time` column, replaces each SMA column entry-wise by
`(sma − close)/close × 100`, leaves every other named column unchanged
(the raw `Close` column is dropped: the output carries no close column
at all); in particular, on a series whose close is a constant `C ≠ 0`
every scaled entry of an SMA column that equals `C` everywhere is
exactly 0 (`C ≠ 0` is kept on that last part only, because the float
code would give NaN, not 0, at a zero close). -/
theorem sma_scaler_spec (df : SmaDf) :
    (sma_scaler df).1 = df.openTime ∧
    (sma_scaler df).2.length = df.cols.length ∧
    ∀ k, k < df.cols.length →
      (¬ strStarts "SMA" (df.cols.getD k ("", [])).1 →
        (sma_scaler df).2.getD k ("", []) = df.cols.getD k ("", [])) ∧
      (strStarts "SMA" (df.cols.getD k ("", [])).1 →
        ((sma_scaler df).2.getD k ("", [])).1 = (df.cols.getD k ("", [])).1 ∧
        (∀ i, i < (df.cols.getD k ("", [])).2.length → i < df.close.length →
          ((sma_scaler df).2.getD k ("", [])).2.getD i 0 =
            ((df.cols.getD k ("", [])).2.getD i 0 - df.close.getD i 0) /
              df.close.getD i 0 * 100) ∧
        (∀ C : ℚ, C ≠ 0 → (∀ x ∈ df.close, x = C) →
          (∀ x ∈ (df.cols.getD k ("", [])).2, x = C) →
          ∀ y ∈ ((sma_scaler df).2.getD k ("", [])).2, y = 0)) := by
  refine ⟨rfl, by simp [sma_scaler], fun k hk => ?_⟩
  have hout : (sma_scaler df).2.getD k ("", []) =
      (if strStarts "SMA" (df.cols.getD k ("", [])).1 then
        ((df.cols.getD k ("", [])).1,
          List.zipWith (fun s cl => (s - cl) / cl * 100)
            (df.cols.getD k ("", [])).2 df.close)
      else df.cols.getD k ("", [])) := by
    rw [sma_scaler, List.getD_eq_getElem?_getD, List.getD_eq_getElem?_getD,
      List.getElem?_map, List.getElem?_eq_getElem hk]
    rfl
  constructor
  · intro hns
    rw [hout, if_neg hns]
  · intro hs
    rw [hout, if_pos hs]
    refine ⟨rfl, fun i hi1 hi2 => getD_zipWith _ _ _ i hi1 hi2,
      fun C _hC hclose hconst y hy => ?_⟩
    have hy2 : y ∈ List.zipWith (fun s cl => (s - cl) / cl * 100)
        (df.cols.getD k ("", [])).2 df.close := hy
    obtain ⟨a, ha, b, hb, rfl⟩ := mem_zipWith_imp _ _ _ y hy2
    rw [hconst a ha, hclose b hb]
    simp

/-- Concrete scaler input used by the witness of C8: constant close 2,
one SMA column equal to the close and one non-SMA column. -/
def constSmaDf : SmaDf :=
  ⟨[1, 2], [2, 2], [("SMA14", [2, 2]), ("RSI14", [50, 50])]⟩

/-- Witness for C8: the theorem applied at `constSmaDf`, with the
inner hypotheses of the constant-close conclusion discharged at
`C = 2` for its SMA column (position 0). -/
theorem sma_scaler_spec_witness :
    ((sma_scaler constSmaDf).1 = constSmaDf.openTime ∧
     (sma_scaler constSmaDf).2.length = constSmaDf.cols.length ∧
     ∀ k, k < constSmaDf.cols.length →
       (¬ strStarts "SMA" (constSmaDf.cols.getD k ("", [])).1 →
         (sma_scaler constSmaDf).2.getD k ("", []) = constSmaDf.cols.getD k ("", [])) ∧
       (strStarts "SMA" (constSmaDf.cols.getD k ("", [])).1 →
         ((sma_scaler constSmaDf).2.getD k ("", [])).1 = (constSmaDf.cols.getD k ("", [])).1 ∧
         (∀ i, i < (constSmaDf.cols.getD k ("", [])).2.length → i < constSmaDf.close.length →
           ((sma_scaler constSmaDf).2.getD k ("", [])).2.getD i 0 =
             ((constSmaDf.cols.getD k ("", [])).2.getD i 0 - constSmaDf.close.getD i 0) /
               constSmaDf.close.getD i 0 * 100) ∧
         (∀ C : ℚ, C ≠ 0 → (∀ x ∈ constSmaDf.close, x = C) →
           (∀ x ∈ (constSmaDf.cols.getD k ("", [])).2, x = C) →
           ∀ y ∈ ((sma_scaler constSmaDf).2.getD k ("", [])).2, y = 0))) ∧
    (∀ y ∈ ((sma_scaler constSmaDf).2.getD 0 ("", [])).2, y = 0) :=
  ⟨sma_scaler_spec constSmaDf,
    (((sma_scaler_spec constSmaDf).2.2 0 (by norm_num [constSmaDf])).2
      (by decide)).2.2 2 (by norm_num)
      (by norm_num [constSmaDf]) (by norm_num [constSmaDf])⟩

/-! ## Claim C4: alignment on strictly increasing timestamp columns -/

instance : IsAntisymm ℕ (· < ·) :=
  ⟨fun _ _ h1 h2 => absurd h2 (Nat.lt_asymm h1)⟩

theorem sorted_inter_comm (l1 l2 : List ℕ)
    (h1 : l1.Pairwise (· < ·)) (h2 : l2.Pairwise (· < ·)) :
    l1.filter (fun k => decide (k ∈ l2)) = l2.filter (fun k => decide (k ∈ l1)) := by
  have s1 : (l1.filter (fun k => decide (k ∈ l2))).Pairwise (· < ·) :=
    List.Pairwise.sublist (List.filter_sublist l1) h1
  have s2 : (l2.filter (fun k => decide (k ∈ l1))).Pairwise (· < ·) :=
    List.Pairwise.sublist (List.filter_sublist l2) h2
  have nd1 : (l1.filter (fun k => decide (k ∈ l2))).Nodup :=
    s1.imp (fun h => Nat.ne_of_lt h)
  have nd2 : (l2.filter (fun k => decide (k ∈ l1))).Nodup :=
    s2.imp (fun h => Nat.ne_of_lt h)
  have hperm : List.Perm (l1.filter (fun k => decide (k ∈ l2)))
      (l2.filter (fun k => decide (k ∈ l1))) := by
    rw [List.perm_ext_iff_of_nodup nd1 nd2]
    intro a
    simp only [List.mem_filter, decide_eq_true_eq]
    exact ⟨fun h => ⟨h.2, h.1⟩, fun h => ⟨h.2, h.1⟩⟩
  exact List.eq_of_perm_of_sorted hperm s1 s2

/-- Claim C4: for every pair of series whose key columns are strictly
increasing, `align_dataframes` returns two series whose key columns
are identical sequences (hence of equal length), every key of either
output occurs in both inputs, and each output is a sub-list of its
input (the original relative order is preserved). -/
theorem align_dataframes_spec {α β : Type} (key1 : α → ℕ) (key2 : β → ℕ)
    (df1 : List α) (df2 : List β)
    (h1 : (df1.map key1).Pairwise (· < ·)) (h2 : (df2.map key2).Pairwise (· < ·)) :
    ((align_dataframes key1 key2 df1 df2).1.map key1 =
      (align_dataframes key1 key2 df1 df2).2.map key2) ∧
    (align_dataframes key1 key2 df1 df2).1.length =
      (align_dataframes key1 key2 df1 df2).2.length ∧
    (∀ k ∈ (align_dataframes key1 key2 df1 df2).1.map key1,
      k ∈ df1.map key1 ∧ k ∈ df2.map key2) ∧
    (∀ k ∈ (align_dataframes key1 key2 df1 df2).2.map key2,
      k ∈ df1.map key1 ∧ k ∈ df2.map key2) ∧
    List.Sublist (align_dataframes key1 key2 df1 df2).1 df1 ∧
    List.Sublist (align_dataframes key1 key2 df1 df2).2 df2 := by
  have hm1 : (align_dataframes key1 key2 df1 df2).1.map key1 =
      (df1.map key1).filter (fun k => decide (k ∈
        (df1.map key1).filter (fun j => decide (j ∈ df2.map key2)))) :=
    (@List.filter_map _ _ (fun k => decide (k ∈
      (df1.map key1).filter (fun j => decide (j ∈ df2.map key2)))) key1 df1).symm
  have hm2 : (align_dataframes key1 key2 df1 df2).2.map key2 =
      (df2.map key2).filter (fun k => decide (k ∈
        (df1.map key1).filter (fun j => decide (j ∈ df2.map key2)))) :=
    (@List.filter_map _ _ (fun k => decide (k ∈
      (df1.map key1).filter (fun j => decide (j ∈ df2.map key2)))) key2 df2).symm
  have hc1 : (df1.map key1).filter (fun k => decide (k ∈
        (df1.map key1).filter (fun j => decide (j ∈ df2.map key2)))) =
      (df1.map key1).filter (fun k => decide (k ∈ df2.map key2)) := by
    apply List.filter_congr
    intro x hx
    have hmem : x ∈ (df1.map key1).filter (fun j => decide (j ∈ df2.map key2)) ↔
        x ∈ df2.map key2 := by
      rw [List.mem_filter]
      simp only [decide_eq_true_eq]
      exact ⟨fun h => h.2, fun h => ⟨hx, h⟩⟩
    exact decide_eq_decide.mpr hmem
  have hc2 : (df2.map key2).filter (fun k => decide (k ∈
        (df1.map key1).filter (fun j => decide (j ∈ df2.map key2)))) =
      (df2.map key2).filter (fun k => decide (k ∈ df1.map key1)) := by
    apply List.filter_congr
    intro x hx
    have hmem : x ∈ (df1.map key1).filter (fun j => decide (j ∈ df2.map key2)) ↔
        x ∈ df1.map key1 := by
      rw [List.mem_filter]
      simp only [decide_eq_true_eq]
      exact ⟨fun h => h.1, fun h => ⟨h, hx⟩⟩
    exact decide_eq_decide.mpr hmem
  have hkeys : (align_dataframes key1 key2 df1 df2).1.map key1 =
      (align_dataframes key1 key2 df1 df2).2.map key2 := by
    rw [hm1, hc1, hm2, hc2]
    exact sorted_inter_comm (df1.map key1) (df2.map key2) h1 h2
  refine ⟨hkeys, ?_, ?_, ?_, List.filter_sublist df1, List.filter_sublist df2⟩
  · have := congrArg List.length hkeys
    simpa using this
  · intro k hk
    rw [hm1, hc1, List.mem_filter] at hk
    simp only [decide_eq_true_eq] at hk
    exact hk
  · intro k hk
    rw [hm2, hc2, List.mem_filter] at hk
    simp only [decide_eq_true_eq] at hk
    exact ⟨hk.2, hk.1⟩

/-- Witness for C4 at a concrete pair of series with strictly
increasing keys. -/
theorem align_dataframes_spec_witness :
    ((([((1 : ℕ), (10 : ℚ)), (2, 20), (3, 30)]).map Prod.fst).Pairwise (· < ·) ∧
     (([((2 : ℕ), (5 : ℚ)), (4, 6)]).map Prod.fst).Pairwise (· < ·)) ∧
    (((align_dataframes Prod.fst Prod.fst
        [((1 : ℕ), (10 : ℚ)), (2, 20), (3, 30)] [((2 : ℕ), (5 : ℚ)), (4, 6)]).1.map Prod.fst =
      (align_dataframes Prod.fst Prod.fst
        [((1 : ℕ), (10 : ℚ)), (2, 20), (3, 30)] [((2 : ℕ), (5 : ℚ)), (4, 6)]).2.map Prod.fst) ∧
     (align_dataframes Prod.fst Prod.fst
        [((1 : ℕ), (10 : ℚ)), (2, 20), (3, 30)] [((2 : ℕ), (5 : ℚ)), (4, 6)]).1.length =
       (align_dataframes Prod.fst Prod.fst
        [((1 : ℕ), (10 : ℚ)), (2, 20), (3, 30)] [((2 : ℕ), (5 : ℚ)), (4, 6)]).2.length ∧
     (∀ k ∈ (align_dataframes Prod.fst Prod.fst
        [((1 : ℕ), (10 : ℚ)), (2, 20), (3, 30)] [((2 : ℕ), (5 : ℚ)), (4, 6)]).1.map Prod.fst,
       k ∈ ([((1 : ℕ), (10 : ℚ)), (2, 20), (3, 30)]).map Prod.fst ∧
       k ∈ ([((2 : ℕ), (5 : ℚ)), (4, 6)]).map Prod.fst) ∧
     (∀ k ∈ (align_dataframes Prod.fst Prod.fst
        [((1 : ℕ), (10 : ℚ)), (2, 20), (3, 30)] [((2 : ℕ), (5 : ℚ)), (4, 6)]).2.map Prod.fst,
       k ∈ ([((1 : ℕ), (10 : ℚ)), (2, 20), (3, 30)]).map Prod.fst ∧
       k ∈ ([((2 : ℕ), (5 : ℚ)), (4, 6)]).map Prod.fst) ∧
     List.Sublist (align_dataframes Prod.fst Prod.fst
        [((1 : ℕ), (10 : ℚ)), (2, 20), (3, 30)] [((2 : ℕ), (5 : ℚ)), (4, 6)]).1
       [((1 : ℕ), (10 : ℚ)), (2, 20), (3, 30)] ∧
     List.Sublist (align_dataframes Prod.fst Prod.fst
        [((1 : ℕ), (10 : ℚ)), (2, 20), (3, 30)] [((2 : ℕ), (5 : ℚ)), (4, 6)]).2
       [((2 : ℕ), (5 : ℚ)), (4, 6)]) :=
  ⟨⟨by decide, by decide⟩,
    align_dataframes_spec Prod.fst Prod.fst
      [((1 : ℕ), (10 : ℚ)), (2, 20), (3, 30)] [((2 : ℕ), (5 : ℚ)), (4, 6)]
      (by decide) (by decide)⟩

/-! ## Claim C1: frame count and frame fields of build_frames -/

theorem align_dataframes_id {α β : Type} (key1 : α → ℕ) (key2 : β → ℕ)
    (df1 : List α) (df2 : List β) (h : df1.map key1 = df2.map key2) :
    align_dataframes key1 key2 df1 df2 = (df1, df2) := by
  have hck : (df1.map key1).filter (fun k => decide (k ∈ df2.map key2)) = df1.map key1 := by
    rw [List.filter_eq_self]
    intro a ha
    simp only [decide_eq_true_eq]
    rw [← h]
    exact ha
  have e1 : df1.filter (fun r => decide (key1 r ∈
      (df1.map key1).filter (fun k => decide (k ∈ df2.map key2)))) = df1 := by
    rw [List.filter_eq_self]
    intro r hr
    simp only [decide_eq_true_eq]
    rw [hck]
    exact List.mem_map_of_mem key1 hr
  have e2 : df2.filter (fun r => decide (key2 r ∈
      (df1.map key1).filter (fun k => decide (k ∈ df2.map key2)))) = df2 := by
    rw [List.filter_eq_self]
    intro r hr
    simp only [decide_eq_true_eq]
    rw [hck, h]
    exact List.mem_map_of_mem key2 hr
  rw [align_dataframes]
  rw [e1, e2]

/-- Claim C1: over an aligned pair of series (identical `Open Time`
columns) with `n` rows, window size `w` and target distance `d` with
`w + d ≥ 1`, `build_frames` emits exactly `max(0, n − w − d + 1)`
frames (valid and invalid alike, expressed via `Int.toNat`), and the
frame at cursor position `k` carries start time `bars[k].open_time`,
target time `bars[k+w+d−1].open_time` and target evolution
`(close[k+w+d−1] − close[k]) / close[k]`. -/
theorem build_frames_spec (bars : List Bar) (inds : List IndRow) (w d : ℕ)
    (halign : bars.map Bar.openTime = inds.map IndRow.openTime) (_hwd : 1 ≤ w + d) :
    (build_frames bars inds w d).length = ((bars.length : ℤ) - w - d + 1).toNat ∧
    ∀ k, k < (build_frames bars inds w d).length →
      ((build_frames bars inds w d).getD k default).startTime =
        (bars.getD k default).openTime ∧
      ((build_frames bars inds w d).getD k default).frameTargetTimestamp =
        (bars.getD (k + w + d - 1) default).openTime ∧
      ((build_frames bars inds w d).getD k default).target =
        ((bars.getD (k + w + d - 1) default).close - (bars.getD k default).close) /
          (bars.getD k default).close := by
  have hb : build_frames bars inds w d =
      (List.range (bars.length + 1 - (w + d))).map (fun i =>
        ⟨(bars.getD i default).openTime, w, d,
          (bars.getD (i + w + d - 1) default).openTime,
          dataframe_to_indicators ((inds.drop i).take w),
          ((bars.getD (i + w + d - 1) default).close - (bars.getD i default).close) /
            (bars.getD i default).close⟩) := by
    rw [build_frames, align_dataframes_id Bar.openTime IndRow.openTime bars inds halign]
  constructor
  · rw [hb, List.length_map, List.length_range]
    omega
  · intro k hk
    have hk2 : k < bars.length + 1 - (w + d) := by
      rw [hb, List.length_map, List.length_range] at hk
      exact hk
    have hget : (build_frames bars inds w d).getD k default =
        ⟨(bars.getD k default).openTime, w, d,
          (bars.getD (k + w + d - 1) default).openTime,
          dataframe_to_indicators ((inds.drop k).take w),
          ((bars.getD (k + w + d - 1) default).close - (bars.getD k default).close) /
            (bars.getD k default).close⟩ := by
      rw [hb, List.getD_eq_getElem?_getD, List.getElem?_map, List.getElem?_range hk2]
      rfl
    rw [hget]
    exact ⟨rfl, rfl, rfl⟩

/-- Bars used by the witness of C1. -/
def wBars : List Bar := [⟨0, 10⟩, ⟨1, 20⟩, ⟨2, 30⟩]

/-- Indicator rows used by the witness of C1, aligned with `wBars`. -/
def wInds : List IndRow :=
  [⟨0, [("RSI14", 50)]⟩, ⟨1, [("RSI14", 51)]⟩, ⟨2, [("RSI14", 52)]⟩]

/-- Witness for C1 at three aligned rows with `w = 1` and `d = 1`. -/
theorem build_frames_spec_witness :
    (wBars.map Bar.openTime = wInds.map IndRow.openTime ∧ 1 ≤ 1 + 1) ∧
    ((build_frames wBars wInds 1 1).length = ((wBars.length : ℤ) - 1 - 1 + 1).toNat ∧
     ∀ k, k < (build_frames wBars wInds 1 1).length →
       ((build_frames wBars wInds 1 1).getD k default).startTime =
         (wBars.getD k default).openTime ∧
       ((build_frames wBars wInds 1 1).getD k default).frameTargetTimestamp =
         (wBars.getD (k + 1 + 1 - 1) default).openTime ∧
       ((build_frames wBars wInds 1 1).getD k default).target =
         ((wBars.getD (k + 1 + 1 - 1) default).close - (wBars.getD k default).close) /
           (wBars.getD k default).close) :=
  ⟨⟨by decide, by omega⟩, build_frames_spec wBars wInds 1 1 (by decide) (by omega)⟩

end DataWrangling
